import Mathlib

/-!
Verification of the `mod-server-auto-shutdown` module (ServerAutoShutdown.cpp).

The source is shallowly embedded: absolute instants (`time_t`) are natural
numbers counting seconds since the epoch, and the local calendar is modelled
as a fixed-offset calendar whose days are exactly 86400 seconds long
(epoch day = Thursday, so weekday of day `d` is `(d + 4) % 7`, matching
`tm_wday` for UTC).  C++ strings are `List Char`; fallible parsing returns
`Option`.  The uint32 subtractions in `Init` are modelled by truncated `Nat`
subtraction: in every reachable state the computed next instant is strictly
after `now` (proved below), and the two intermediate differences that could
wrap in C are dead values, overwritten by the compression branch exactly when
they would wrap.
-/

/-- Broken-down local time, the fields of `struct tm` that the module reads or
writes: day index since the epoch (absorbing `tm_year`/`tm_mon`/`tm_mday`
after `mktime` normalization), hour, minute, second. -/
structure Tm where
  days : Nat
  hour : Nat
  min : Nat
  sec : Nat
deriving DecidableEq, Repr

/-- Modelled from the spec: the local-calendar breakdown collaborator
(`Acore::Time::TimeBreakdown`, i.e. `localtime`), under the fixed-offset
86400-second-day calendar described in the module header above. -/
def timeBreakdown (t : Nat) : Tm :=
  { days := t / 86400, hour := t % 86400 / 3600, min := t % 3600 / 60, sec := t % 60 }

/-- Modelled from the spec: the `mktime` collaborator recomposing a broken-down
local time into an absolute instant, normalizing an out-of-range day field by
carrying whole days (which is how `GetNextWeekdayTime` uses `tm_mday +=`). -/
def mktime (tm : Tm) : Nat :=
  tm.days * 86400 + tm.hour * 3600 + tm.min * 60 + tm.sec

/-- The `tm_wday` field of a broken-down time (epoch day was a Thursday). -/
def Tm.wday (tm : Tm) : Nat := (tm.days + 4) % 7

/-- Embedding of `GetNextResetTime` (src/unnamed/part_000 lines 38-51):
take `time`'s calendar day, pin hour/minute/second, and if the interval is
greater than one day or the pinned instant is not strictly in the future,
advance by `86400 * day` seconds. -/
def GetNextResetTime (time : Nat) (day : Nat) (hour minute second : Nat) : Nat :=
  let timeLocal := timeBreakdown time
  let midnightLocal := mktime { timeLocal with hour := hour, min := minute, sec := second }
  if day > 1 ∨ midnightLocal ≤ time then midnightLocal + 86400 * day else midnightLocal

/-- Embedding of `GetNextWeekdayTime` (src/unnamed/part_000 lines 54-75):
next instant with the given weekday (0 = Sunday) and time of day.  The C
expression `(weekday - currentWeekday + 7) % 7` on `int`s is written
`(weekday + 7 - currentWeekday) % 7` on `Nat`: `currentWeekday ≤ 6 < weekday + 7`
so the subtraction never truncates and both agree for every `weekday ≥ 0`
(the call site guarantees `0 ≤ weekday ≤ 6`). -/
def GetNextWeekdayTime (now : Nat) (weekday : Nat) (restartHour restartMinute restartSecond : Nat) : Nat :=
  let timeLocal := timeBreakdown now
  let currentWeekday := timeLocal.wday
  let d0 := (weekday + 7 - currentWeekday) % 7
  let daysUntil :=
    if d0 = 0 ∧ (timeLocal.hour > restartHour ∨
        (timeLocal.hour = restartHour ∧ timeLocal.min > restartMinute) ∨
        (timeLocal.hour = restartHour ∧ timeLocal.min = restartMinute ∧ timeLocal.sec ≥ restartSecond))
    then 7 else d0
  mktime { days := timeLocal.days + daysUntil, hour := restartHour,
           min := restartMinute, sec := restartSecond }

/-- Now's time of day is strictly before the target `(h, m, s)` in the
lexicographic hour-minute-second order (the negation of the roll-over test
of `GetNextWeekdayTime`). -/
def timeOfDayBefore (tm : Tm) (h m s : Nat) : Prop :=
  tm.hour < h ∨ (tm.hour = h ∧ tm.min < m) ∨ (tm.hour = h ∧ tm.min = m ∧ tm.sec < s)

instance (tm : Tm) (h m s : Nat) : Decidable (timeOfDayBefore tm h m s) := by
  unfold timeOfDayBefore; infer_instance

/-- Modelled from the spec: one splitting step of the external `Acore::Tokenize`
collaborator (accumulator holds the current token reversed). -/
def splitAux (sep : Char) (cur : List Char) : List Char → List (List Char)
  | [] => [cur.reverse]
  | c :: rest =>
      if c = sep then cur.reverse :: splitAux sep [] rest
      else splitAux sep (c :: cur) rest

/-- Modelled from the spec: the `Acore::Tokenize(str, sep, keepEmpty = false)`
collaborator — split on the separator and drop empty tokens. -/
def tokenize (s : List Char) (sep : Char) : List (List Char) :=
  (splitAux sep [] s).filter (fun t => t ≠ [])

/-- Value of one decimal digit character, `none` for a non-digit. -/
def digitValue (c : Char) : Option Nat :=
  if 48 ≤ c.toNat ∧ c.toNat ≤ 57 then some (c.toNat - 48) else none

/-- Base-10 accumulation over the characters of a token. -/
def parseDigitsAux : List Char → Nat → Option Nat
  | [], acc => some acc
  | c :: rest, acc =>
      match digitValue c with
      | some d => parseDigitsAux rest (acc * 10 + d)
      | none => none

/-- Modelled from the spec: the numeric core of the `Acore::StringTo`
collaborator — a non-empty all-digit token parsed in base 10, `none` otherwise. -/
def parseDigits (s : List Char) : Option Nat :=
  if s = [] then none else parseDigitsAux s 0

/-- Modelled from the spec: `Acore::StringTo<uint8>` — parse and require the
value to fit in a uint8. -/
def stringToUInt8 (s : List Char) : Option Nat :=
  match parseDigits s with
  | some v => if v ≤ 255 then some v else none
  | none => none

/-- Modelled from the spec: `Acore::StringTo<uint32>` — parse and require the
value to fit in a uint32. -/
def stringToUInt32 (s : List Char) : Option Nat :=
  match parseDigits s with
  | some v => if v ≤ 4294967295 then some v else none
  | none => none

/-- Embedding of the per-entry time-string validation in `Init`
(src/unnamed/part_000 lines 97-136): split the entry on a colon; require
exactly three tokens, each parsing as a uint8; require hour ≤ 23, minute ≤ 59,
second ≤ 59.  `none` models the logged log-and-skip branches. -/
def parseTimeEntry (s : List Char) : Option (Nat × Nat × Nat) :=
  match tokenize s (':') with
  | [t0, t1, t2] =>
      match stringToUInt8 t0 with
      | none => none
      | some hour =>
          match stringToUInt8 t1 with
          | none => none
          | some minute =>
              match stringToUInt8 t2 with
              | none => none
              | some second =>
                  if hour > 23 ∨ minute ≥ 60 ∨ second ≥ 60 then none
                  else some (hour, minute, second)
  | _ => none

/-- The configuration values `Init` reads through the `sConfigMgr` collaborator
(typed get-with-default): master switch, the raw `ServerAutoShutdown.Time`
string, weekday, every-days cadence, pre-announce seconds, and the pre-announce
message template. -/
structure Config where
  enabled : Bool
  timeStr : List Char
  weekday : Int
  everyDays : Nat
  preAnnounceSeconds : Nat
  preAnnounceMessage : List Char
deriving DecidableEq, Repr

/-- A task armed on the `TaskScheduler`: its remaining relative delay in
seconds and the effective pre-announce seconds captured by its closure. -/
structure ArmedTask where
  delay : Nat
  preSeconds : Nat
deriving DecidableEq, Repr

/-- The module's process-wide mutable state: the tasks held by the anonymous
namespace `TaskScheduler` and the `_isEnableModule` flag. -/
structure ModuleState where
  tasks : List ArmedTask
  isEnableModule : Bool
deriving DecidableEq, Repr

/-- Embedding of the weekday validation (src/unnamed/part_000 lines 150-154):
a weekday outside [-1, 6] is corrected to -1 with a warning, and processing
continues. -/
def correctedWeekday (w : Int) : Int :=
  if w < -1 ∨ w > 6 then -1 else w

/-- Embedding of the pre-announce clamp (src/unnamed/part_000 lines 195-200):
a configured value above one day (86400) is replaced by 3600 with a logged
correction. -/
def clampPreAnnounce (p : Nat) : Nat :=
  if p > 86400 then 3600 else p

/-- Embedding of the cadence-policy dispatch (src/unnamed/part_000 lines
173-180): weekday-based scheduling when the (corrected) weekday is in [0, 6],
otherwise every-days scheduling. -/
def nextInstant (now : Nat) (weekday : Int) (everyDays : Nat) (hour minute second : Nat) : Nat :=
  if 0 ≤ weekday ∧ weekday ≤ 6 then GetNextWeekdayTime now weekday.toNat hour minute second
  else GetNextResetTime now everyDays hour minute second

/-- Embedding of one iteration of the arming loop of `Init`
(src/unnamed/part_000 lines 168-241): compute the next instant and the
shutdown delay; skip the entry when the delay is under 10 seconds; clamp the
configured pre-announce seconds; if the shutdown delay is inside the announce
window, fire the pre-announce one second from now with the shutdown delay as
the effective announced duration, else fire it `delay - preAnnounce` seconds
from now with the clamped value.  The two uint32 differences that would wrap
in C (`timeToPreAnnounce`, `diffToPreAnnounce`) wrap exactly when
`diffToShutdown < preAnnounceSeconds`, and in that case both are overwritten
by the compression branch, so truncated `Nat` subtraction is observationally
equal. -/
def buildEntry (now : Nat) (weekday : Int) (everyDays cfgPre : Nat) (e : Nat × Nat × Nat) : Option ArmedTask :=
  let diffToShutdown := nextInstant now weekday everyDays e.1 e.2.1 e.2.2 - now
  if diffToShutdown < 10 then none
  else
    let preAnnounceSeconds := clampPreAnnounce cfgPre
    let diffToPreAnnounce := nextInstant now weekday everyDays e.1 e.2.1 e.2.2 - preAnnounceSeconds - now
    if diffToShutdown < preAnnounceSeconds then
      some { delay := 1, preSeconds := diffToShutdown }
    else
      some { delay := diffToPreAnnounce, preSeconds := preAnnounceSeconds }

/-- The schedule built by a successful pass of `Init`: parse and validate the
semicolon-separated time entries, then arm one pre-announce task per surviving
entry. -/
def builtSchedule (cfg : Config) (now : Nat) : List ArmedTask :=
  ((tokenize cfg.timeStr (';')).filterMap parseTimeEntry).filterMap
    (buildEntry now (correctedWeekday cfg.weekday) cfg.everyDays cfg.preAnnounceSeconds)

/-- Embedding of `ServerAutoShutdown::Init` (src/unnamed/part_000 lines
84-242) as a transition on the module state.  The three early-return paths
(module disabled, no valid time entry, every-days out of [1, 365]) clear the
enabled flag and leave the scheduler's tasks untouched; only the successful
path reaches `scheduler.CancelAll()` and replaces the task list with the newly
built schedule.  Collaborator side effects (logging, `sWorld->ShutdownCancel`)
are outside the state. -/
def Init (cfg : Config) (now : Nat) (st : ModuleState) : ModuleState :=
  if cfg.enabled = false then { st with isEnableModule := false }
  else if ((tokenize cfg.timeStr (';')).filterMap parseTimeEntry).isEmpty then
    { st with isEnableModule := false }
  else if cfg.everyDays < 1 ∨ cfg.everyDays > 365 then
    { st with isEnableModule := false }
  else
    { tasks := builtSchedule cfg now, isEnableModule := true }

/-- The loop of `StartPersistentGameEvents` over the space-separated tokens:
empty tokens are skipped; a non-empty token is parsed by `Acore::StringTo` and
the optional is dereferenced without a check, so a failed parse (modelled as
`none` for the whole run) is the unguarded-dereference error branch; a
successful run collects the started event ids in order. -/
def startEventsAux : List (List Char) → Option (List Nat)
  | [] => some []
  | tok :: rest =>
      if tok = [] then startEventsAux rest
      else
        match stringToUInt32 tok, startEventsAux rest with
        | some id, some ids => some (id :: ids)
        | _, _ => none

/-- Embedding of `ServerAutoShutdown::StartPersistentGameEvents`
(src/unnamed/part_000 lines 253-273): tokenize the configured
`ServerAutoShutdown.StartEvents` string on spaces and process each token. -/
def StartPersistentGameEvents (eventList : List Char) : Option (List Nat) :=
  startEventsAux (tokenize eventList (' '))

/-- Modelled from the spec: the `Acore::StringFormat` collaborator substituting
the first positional `\x7b\x7d` placeholder of the template with the argument. -/
def stringFormat : List Char → List Char → List Char
  | [], _ => []
  | c :: rest, arg =>
      match rest with
      | c2 :: rest2 =>
          if c = ('\x7b') ∧ c2 = ('\x7d') then arg ++ rest2
          else c :: stringFormat rest arg
      | [] => [c]

/-- Modelled from the spec: the `Acore::Time::ToTimeString` collaborator
rendering a second count as text; only its dependence on the captured seconds
matters to the claims, so the decimal digits stand for the full rendering. -/
def toTimeString (n : Nat) : List Char := Nat.toDigits 10 n

/-- The observable effect of one pre-announce task firing: the broadcast
message and the delay handed to `sWorld->ShutdownServ`. -/
structure FireEffect where
  message : List Char
  shutdownDelaySeconds : Nat
deriving DecidableEq, Repr

/-- Embedding of the pre-announce task lambda (src/unnamed/part_000 lines
218-240): the closure captures only the effective `preAnnounceSeconds`; the
message template is fetched from the live configuration at fire time, the
captured seconds are rendered into it, and the same captured seconds are
passed as the delay of `ShutdownServ`. -/
def fireAction (t : ArmedTask) (liveCfg : Config) : FireEffect :=
  { message := stringFormat liveCfg.preAnnounceMessage (toTimeString t.preSeconds),
    shutdownDelaySeconds := t.preSeconds }

theorem GetNextResetTime_eq (time day hour minute second : Nat) :
    GetNextResetTime time day hour minute second =
      if day > 1 ∨ time / 86400 * 86400 + (hour * 3600 + minute * 60 + second) ≤ time
      then time / 86400 * 86400 + (hour * 3600 + minute * 60 + second) + 86400 * day
      else time / 86400 * 86400 + (hour * 3600 + minute * 60 + second) := by
  simp only [GetNextResetTime, timeBreakdown, mktime]
  ring_nf

theorem GetNextWeekdayTime_eq (now weekday rh rm rs : Nat) :
    GetNextWeekdayTime now weekday rh rm rs =
      (now / 86400 +
        (if (weekday + 7 - (now / 86400 + 4) % 7) % 7 = 0 ∧
             (now % 86400 / 3600 > rh ∨
              (now % 86400 / 3600 = rh ∧ now % 3600 / 60 > rm) ∨
              (now % 86400 / 3600 = rh ∧ now % 3600 / 60 = rm ∧ now % 60 ≥ rs))
         then 7 else (weekday + 7 - (now / 86400 + 4) % 7) % 7)) * 86400 +
        rh * 3600 + rm * 60 + rs := by
  simp only [GetNextWeekdayTime, timeBreakdown, mktime, Tm.wday]

/-- C1: for valid hour/minute/second and interval at least 1, `GetNextResetTime`
returns the same-day instant exactly when the interval is 1 and that instant is
strictly after `now`; otherwise the same-day instant plus `86400 * interval`
seconds.  For interval > 1 the same-day instant is never returned, and for
interval = 1 the result is always at least `now`. -/
theorem nextCadenceInstant_spec (time day hour minute second : Nat)
    (hd : 1 ≤ day) (hh : hour ≤ 23) (hm : minute ≤ 59) (hs : second ≤ 59) :
    GetNextResetTime time day hour minute second =
      (if day = 1 ∧ time < time / 86400 * 86400 + (hour * 3600 + minute * 60 + second)
       then time / 86400 * 86400 + (hour * 3600 + minute * 60 + second)
       else time / 86400 * 86400 + (hour * 3600 + minute * 60 + second) + 86400 * day)
    ∧ (1 < day →
        GetNextResetTime time day hour minute second =
          time / 86400 * 86400 + (hour * 3600 + minute * 60 + second) + 86400 * day ∧
        GetNextResetTime time day hour minute second ≠
          time / 86400 * 86400 + (hour * 3600 + minute * 60 + second))
    ∧ (day = 1 → time ≤ GetNextResetTime time day hour minute second) := by
  rw [GetNextResetTime_eq]
  refine ⟨?_, fun h1 => ?_, fun h1 => ?_⟩ <;> split_ifs <;> omega

/-- C1 witness: at 01:00:00 on the epoch day with interval 1 and target
04:00:00 the result is not before `now`. -/
theorem nextCadenceInstant_spec_witness :
    1 ≤ 1 ∧ 3600 ≤ GetNextResetTime 3600 1 4 0 0 :=
  ⟨by decide,
   (nextCadenceInstant_spec 3600 1 4 0 0 (by decide) (by decide) (by decide)
     (by decide)).2.2 rfl⟩

/-- C2: for a target weekday in 0-6 and a valid time of day, `GetNextWeekdayTime`
returns an instant whose weekday is the target and whose date is between today
and seven days ahead; when the target weekday is today's weekday, the result
falls on today exactly when the target time of day is strictly in the future
(lexicographic hour, minute, second), and a boundary-exact match rolls over a
full seven days. -/
theorem nextWeekdayInstant_spec (now weekday rh rm rs : Nat)
    (hw : weekday ≤ 6) (hh : rh ≤ 23) (hm : rm ≤ 59) (hs : rs ≤ 59) :
    (GetNextWeekdayTime now weekday rh rm rs / 86400 + 4) % 7 = weekday
    ∧ now / 86400 ≤ GetNextWeekdayTime now weekday rh rm rs / 86400
    ∧ GetNextWeekdayTime now weekday rh rm rs / 86400 ≤ now / 86400 + 7
    ∧ ((now / 86400 + 4) % 7 = weekday →
        (GetNextWeekdayTime now weekday rh rm rs / 86400 = now / 86400 ↔
          timeOfDayBefore (timeBreakdown now) rh rm rs))
    ∧ ((now / 86400 + 4) % 7 = weekday ∧ now % 86400 = rh * 3600 + rm * 60 + rs →
        GetNextWeekdayTime now weekday rh rm rs = now + 7 * 86400) := by
  rw [GetNextWeekdayTime_eq]
  simp only [timeOfDayBefore, timeBreakdown]
  refine ⟨?_, ?_, ?_, fun hcw => ?_, fun hcw => ?_⟩ <;> split_ifs <;> omega

/-- C2 witness: midnight of the epoch day (a Thursday, weekday 4) asking for
Thursday 00:00:00 is a boundary-exact match and rolls over seven days. -/
theorem nextWeekdayInstant_spec_witness :
    4 ≤ 6 ∧ GetNextWeekdayTime 0 4 0 0 0 = 0 + 7 * 86400 :=
  ⟨by decide,
   (nextWeekdayInstant_spec 0 4 0 0 0 (by decide) (by decide) (by decide)
     (by decide)).2.2.2.2 (by decide)⟩

theorem correctedWeekday_idem (w : Int) :
    correctedWeekday (correctedWeekday w) = correctedWeekday w := by
  unfold correctedWeekday
  split_ifs <;> omega

/-- C3 counterexample: an `Init` call taken on the disabled-configuration path
leaves a previously armed task in place, so a task can outlive a
(re)initialization cycle; `CancelAll` does not run on every path. -/
theorem init_cancelAll_counterexample :
    (Init { enabled := false, timeStr := ("04:00:00").data, weekday := -1,
            everyDays := 1, preAnnounceSeconds := 3600,
            preAnnounceMessage := [] } 0
        { tasks := [{ delay := 5, preSeconds := 7 }], isEnableModule := true }).tasks
      = [{ delay := 5, preSeconds := 7 }]
    ∧ ([{ delay := 5, preSeconds := 7 }] : List ArmedTask) ≠ [] := by
  exact ⟨rfl, by decide⟩

/-- C3 (amended): on every path through `Init` that arms tasks, the previously
armed tasks are cancelled first and the task list is wholly replaced by the
newly built schedule, so armed tasks never mix across cycles; the early-return
paths (module disabled, no valid time entry, every-days out of range) arm
nothing but leave previously armed tasks in place, only clearing the enabled
flag. -/
theorem init_cancel_before_arm (cfg : Config) (now : Nat) (st : ModuleState) :
    ((Init cfg now st).tasks = st.tasks ∧ (Init cfg now st).isEnableModule = false)
    ∨ (Init cfg now st).tasks = builtSchedule cfg now := by
  unfold Init
  split_ifs <;> simp

/-- C4: when an entry's shutdown delay is at least 10 seconds but strictly
inside the clamped pre-announce window, the armed task's delay is exactly one
second and the effective pre-announce duration captured by its closure equals
the shutdown delay, not the configured pre-announce seconds. -/
theorem preannounce_window_compressed (now : Nat) (weekday : Int)
    (everyDays cfgPre h m s : Nat)
    (h10 : 10 ≤ nextInstant now weekday everyDays h m s - now)
    (hlt : nextInstant now weekday everyDays h m s - now < clampPreAnnounce cfgPre) :
    buildEntry now weekday everyDays cfgPre (h, m, s) =
      some { delay := 1, preSeconds := nextInstant now weekday everyDays h m s - now } := by
  unfold buildEntry
  dsimp only
  split_ifs with hA
  · omega
  · rfl

/-- C4 witness: thirty seconds before a same-day reset with a one-hour
configured pre-announce, the task is armed one second out and captures the
thirty-second shutdown delay. -/
theorem preannounce_window_compressed_witness :
    10 ≤ nextInstant 0 (-1) 1 0 0 30 - 0
    ∧ nextInstant 0 (-1) 1 0 0 30 - 0 < clampPreAnnounce 3600
    ∧ buildEntry 0 (-1) 1 3600 (0, 0, 30) =
        some { delay := 1, preSeconds := nextInstant 0 (-1) 1 0 0 30 - 0 } :=
  ⟨by decide, by decide,
   preannounce_window_compressed 0 (-1) 1 3600 0 0 30 (by decide) (by decide)⟩

/-- C5: cadence policy selection and validation: a weekday in [0, 6] selects
weekday-based scheduling and anything else leaves the every-days cadence in
charge; a weekday outside [-1, 6] is corrected to -1 and `Init` behaves
exactly as if the corrected value had been configured; an every-days value
outside [1, 365] flips the module to disabled and arms nothing. -/
theorem cadence_policy_validation (now : Nat) (w : Int) (everyDays h m s : Nat)
    (cfg : Config) (st : ModuleState) :
    (0 ≤ w ∧ w ≤ 6 →
      nextInstant now w everyDays h m s = GetNextWeekdayTime now w.toNat h m s)
    ∧ (¬(0 ≤ w ∧ w ≤ 6) →
      nextInstant now w everyDays h m s = GetNextResetTime now everyDays h m s)
    ∧ (w < -1 ∨ 6 < w → correctedWeekday w = -1)
    ∧ Init cfg now st = Init { cfg with weekday := correctedWeekday cfg.weekday } now st
    ∧ (cfg.everyDays < 1 ∨ 365 < cfg.everyDays →
      (Init cfg now st).isEnableModule = false ∧ (Init cfg now st).tasks = st.tasks) := by
  refine ⟨?_, ?_, ?_, ?_, ?_⟩
  · intro hw; unfold nextInstant; rw [if_pos hw]
  · intro hw; unfold nextInstant; rw [if_neg hw]
  · intro hw; unfold correctedWeekday; rw [if_pos (by omega)]
  · cases cfg
    simp only [Init, builtSchedule, correctedWeekday_idem]
  · intro hd
    unfold Init
    split_ifs with h1 h2
    · exact ⟨rfl, rfl⟩
    · exact ⟨rfl, rfl⟩
    · exact ⟨rfl, rfl⟩

/-- C5 witness: a weekday of 3 selects weekday scheduling, a weekday of 9 is
corrected to -1, and an every-days of 0 leaves the module disabled. -/
theorem cadence_policy_validation_witness :
    nextInstant 0 3 1 4 0 0 = GetNextWeekdayTime 0 3 4 0 0
    ∧ correctedWeekday 9 = -1
    ∧ (Init { enabled := true, timeStr := ("04:00:00").data, weekday := -1,
              everyDays := 0, preAnnounceSeconds := 3600,
              preAnnounceMessage := [] } 0
        { tasks := [], isEnableModule := false }).isEnableModule = false :=
  ⟨(cadence_policy_validation 0 3 1 4 0 0
      { enabled := false, timeStr := [], weekday := -1, everyDays := 1,
        preAnnounceSeconds := 3600, preAnnounceMessage := [] }
      { tasks := [], isEnableModule := false }).1 (by decide),
   (cadence_policy_validation 0 9 1 4 0 0
      { enabled := false, timeStr := [], weekday := -1, everyDays := 1,
        preAnnounceSeconds := 3600, preAnnounceMessage := [] }
      { tasks := [], isEnableModule := false }).2.2.1 (by decide),
   ((cadence_policy_validation 0 3 1 4 0 0
      { enabled := true, timeStr := ("04:00:00").data, weekday := -1,
        everyDays := 0, preAnnounceSeconds := 3600, preAnnounceMessage := [] }
      { tasks := [], isEnableModule := false }).2.2.2.2 (by decide)).1⟩

/-- C6: an entry whose shutdown delay is strictly under 10 seconds is skipped
with no task armed, and conversely every armed task comes from an entry whose
shutdown delay is at least 10 seconds. -/
theorem min_shutdown_delay_filter (now : Nat) (weekday : Int)
    (everyDays cfgPre h m s : Nat) (t : ArmedTask) :
    (nextInstant now weekday everyDays h m s - now < 10 →
      buildEntry now weekday everyDays cfgPre (h, m, s) = none)
    ∧ (buildEntry now weekday everyDays cfgPre (h, m, s) = some t →
      10 ≤ nextInstant now weekday everyDays h m s - now) := by
  unfold buildEntry
  dsimp only
  constructor
  · intro hlt
    rw [if_pos hlt]
  · intro hsome
    by_contra hge
    rw [if_pos (by omega)] at hsome
    exact Option.noConfusion hsome

/-- C6 witness: a reset five seconds out is skipped; a reset thirty seconds
out is armed and its delay is at least ten seconds. -/
theorem min_shutdown_delay_filter_witness :
    buildEntry 0 (-1) 1 3600 (0, 0, 5) = none
    ∧ 10 ≤ nextInstant 0 (-1) 1 0 0 30 - 0 :=
  ⟨(min_shutdown_delay_filter 0 (-1) 1 3600 0 0 5
      { delay := 0, preSeconds := 0 }).1 (by decide),
   (min_shutdown_delay_filter 0 (-1) 1 3600 0 0 30
      { delay := 1, preSeconds := 30 }).2 (by decide)⟩

/-- C7: a configured pre-announce value above one day (86400) is normalized to
exactly 3600 — the schedule is built exactly as if 3600 had been configured —
and a value at most one day is used unchanged. -/
theorem preannounce_clamp_normalization (p : Nat) :
    (86400 < p →
      clampPreAnnounce p = 3600
      ∧ ∀ (now : Nat) (weekday : Int) (everyDays h m s : Nat),
          buildEntry now weekday everyDays p (h, m, s) =
            buildEntry now weekday everyDays 3600 (h, m, s))
    ∧ (p ≤ 86400 → clampPreAnnounce p = p) := by
  constructor
  · intro hp
    have hc : clampPreAnnounce p = 3600 := by
      unfold clampPreAnnounce; rw [if_pos hp]
    have hc2 : clampPreAnnounce 3600 = 3600 := by decide
    refine ⟨hc, fun now weekday everyDays h m s => ?_⟩
    unfold buildEntry
    rw [hc, hc2]
  · intro hp
    unfold clampPreAnnounce
    rw [if_neg (by omega)]

/-- C7 witness: 90000 seconds is clamped to 3600; 86400 itself is kept. -/
theorem preannounce_clamp_normalization_witness :
    clampPreAnnounce 90000 = 3600 ∧ clampPreAnnounce 86400 = 86400 :=
  ⟨((preannounce_clamp_normalization 90000).1 (by decide)).1,
   (preannounce_clamp_normalization 86400).2 (by decide)⟩

theorem parseTimeEntry_arity (s : List Char)
    (hl : (tokenize s (':')).length ≠ 3) : parseTimeEntry s = none := by
  unfold parseTimeEntry
  rcases htok : tokenize s (':') with _ | ⟨t0, _ | ⟨t1, _ | ⟨t2, _ | ⟨t3, rest⟩⟩⟩⟩
  · rfl
  · rfl
  · rfl
  · rw [htok] at hl
    exact absurd rfl hl
  · rfl

theorem parseTimeEntry_parse_failure (s tok : List Char)
    (hmem : tok ∈ tokenize s (':')) (hnone : stringToUInt8 tok = none) :
    parseTimeEntry s = none := by
  unfold parseTimeEntry
  rcases htok : tokenize s (':') with _ | ⟨t0, _ | ⟨t1, _ | ⟨t2, _ | ⟨t3, rest⟩⟩⟩⟩ <;>
    try rfl
  rw [htok] at hmem
  simp only [List.mem_cons, List.not_mem_nil, or_false] at hmem
  dsimp only
  rcases hmem with rfl | rfl | rfl
  · rw [hnone]
  · rcases hx : stringToUInt8 t0 with _ | v
    · rfl
    · dsimp only
      rw [hnone]
  · rcases hx : stringToUInt8 t0 with _ | v
    · rfl
    · dsimp only
      rcases hy : stringToUInt8 t1 with _ | w
      · rfl
      · dsimp only
        rw [hnone]

theorem parseTimeEntry_sound (s : List Char) (hh mm ss : Nat)
    (hp : parseTimeEntry s = some (hh, mm, ss)) :
    (tokenize s (':')).length = 3 ∧ hh ≤ 23 ∧ mm ≤ 59 ∧ ss ≤ 59 := by
  unfold parseTimeEntry at hp
  rcases htok : tokenize s (':') with _ | ⟨t0, _ | ⟨t1, _ | ⟨t2, _ | ⟨t3, rest⟩⟩⟩⟩ <;>
    rw [htok] at hp <;> try exact Option.noConfusion hp
  refine ⟨rfl, ?_⟩
  dsimp only at hp
  rcases h0 : stringToUInt8 t0 with _ | hour
  · rw [h0] at hp; exact Option.noConfusion hp
  rw [h0] at hp
  dsimp only at hp
  rcases h1 : stringToUInt8 t1 with _ | minute
  · rw [h1] at hp; exact Option.noConfusion hp
  rw [h1] at hp
  dsimp only at hp
  rcases h2 : stringToUInt8 t2 with _ | second
  · rw [h2] at hp; exact Option.noConfusion hp
  rw [h2] at hp
  dsimp only at hp
  split_ifs at hp with hr
  simp only [Option.some.injEq, Prod.mk.injEq] at hp
  obtain ⟨rfl, rfl, rfl⟩ := hp
  omega

theorem parseTimeEntry_skip (s : List Char) (pre post : List (List Char))
    (hnone : parseTimeEntry s = none) :
    (pre ++ s :: post).filterMap parseTimeEntry =
      (pre ++ post).filterMap parseTimeEntry := by
  simp [List.filterMap_append, List.filterMap_cons, hnone]

/-- C8: time-string validation: an entry that does not split into exactly
three colon-separated tokens, or has a token that fails unsigned parsing, is
rejected; the out-of-range 25-hour entry is rejected; an accepted entry always
has three tokens and in-range hour/minute/second; a rejected entry is skipped
while the surrounding entries are still processed; and when no entry survives,
`Init` disables the module and arms no task. -/
theorem time_string_validation (cfg : Config) (now : Nat) (st : ModuleState)
    (s tok : List Char) (pre post : List (List Char)) (hh mm ss : Nat) :
    parseTimeEntry (("25:00:00").data) = none
    ∧ ((tokenize s (':')).length ≠ 3 → parseTimeEntry s = none)
    ∧ (tok ∈ tokenize s (':') → stringToUInt8 tok = none → parseTimeEntry s = none)
    ∧ (parseTimeEntry s = some (hh, mm, ss) →
        (tokenize s (':')).length = 3 ∧ hh ≤ 23 ∧ mm ≤ 59 ∧ ss ≤ 59)
    ∧ (parseTimeEntry s = none →
        (pre ++ s :: post).filterMap parseTimeEntry =
          (pre ++ post).filterMap parseTimeEntry)
    ∧ (cfg.enabled = true →
        (tokenize cfg.timeStr (';')).filterMap parseTimeEntry = [] →
        (Init cfg now st).isEnableModule = false ∧ (Init cfg now st).tasks = st.tasks) := by
  refine ⟨by decide, parseTimeEntry_arity s, parseTimeEntry_parse_failure s tok,
    parseTimeEntry_sound s hh mm ss, parseTimeEntry_skip s pre post, ?_⟩
  intro hen hempty
  unfold Init
  rw [hen, hempty]
  exact ⟨rfl, rfl⟩

/-- C8 witness: the 25-hour entry is rejected, a two-token entry is rejected,
and a configuration holding only the 25-hour entry leaves the module disabled
with no task armed. -/
theorem time_string_validation_witness :
    parseTimeEntry (("25:00:00").data) = none
    ∧ parseTimeEntry (("04:00").data) = none
    ∧ (Init { enabled := true, timeStr := ("25:00:00").data, weekday := -1,
              everyDays := 1, preAnnounceSeconds := 3600,
              preAnnounceMessage := [] } 0
        { tasks := [{ delay := 3, preSeconds := 4 }], isEnableModule := false }).isEnableModule
        = false :=
  ⟨(time_string_validation
      { enabled := true, timeStr := [], weekday := -1, everyDays := 1,
        preAnnounceSeconds := 3600, preAnnounceMessage := [] } 0
      { tasks := [], isEnableModule := false }
      (("25:00:00").data) [] [] [] 0 0 0).1,
   (time_string_validation
      { enabled := true, timeStr := [], weekday := -1, everyDays := 1,
        preAnnounceSeconds := 3600, preAnnounceMessage := [] } 0
      { tasks := [], isEnableModule := false }
      (("04:00").data) [] [] [] 0 0 0).2.1 (by decide),
   ((time_string_validation
      { enabled := true, timeStr := ("25:00:00").data, weekday := -1,
        everyDays := 1, preAnnounceSeconds := 3600, preAnnounceMessage := [] } 0
      { tasks := [{ delay := 3, preSeconds := 4 }], isEnableModule := false }
      [] [] [] [] 0 0 0).2.2.2.2.2 rfl (by decide)).1⟩

theorem startEventsAux_total (ts : List (List Char))
    (h : ∀ tok ∈ ts, tok ≠ [] → (stringToUInt32 tok).isSome) :
    (startEventsAux ts).isSome := by
  induction ts with
  | nil => rfl
  | cons tok rest ih =>
      have hrest := ih (fun t ht hne => h t (List.mem_cons_of_mem _ ht) hne)
      unfold startEventsAux
      by_cases he : tok = []
      · rw [if_pos he]
        exact hrest
      · rw [if_neg he]
        have htok := h tok (List.mem_cons_self _ _) he
        rcases hx : stringToUInt32 tok with _ | id
        · rw [hx] at htok
          exact Bool.noConfusion htok
        · rcases hy : startEventsAux rest with _ | ids
          · rw [hy] at hrest
            exact Bool.noConfusion hrest
          · rfl

/-- C9: `StartPersistentGameEvents` splits the configured string on spaces and
skips empty tokens; when every non-empty token parses as an unsigned integer
the run is total and starts the listed event ids in order, and a non-numeric
non-empty token reaches the unguarded-dereference error branch of the
unchecked parse. -/
theorem startPersistentGameEvents_parse (eventList : List Char)
    (hok : ∀ tok ∈ tokenize eventList (' '), tok ≠ [] → (stringToUInt32 tok).isSome) :
    (StartPersistentGameEvents eventList).isSome
    ∧ StartPersistentGameEvents (("12 ab").data) = none
    ∧ StartPersistentGameEvents (("3 10").data) = some [3, 10] := by
  refine ⟨startEventsAux_total _ hok, by decide, by decide⟩

/-- C9 witness: a list of two numeric tokens runs to completion. -/
theorem startPersistentGameEvents_parse_witness :
    (StartPersistentGameEvents (("12 7").data)).isSome = true :=
  (startPersistentGameEvents_parse (("12 7").data) (by decide)).1

/-- C10: only the effective pre-announce seconds are captured at build time:
the schedule built by `Init` is unchanged by any change of the configured
message template, while a firing task formats whatever template is live in the
configuration at fire time around the captured duration, and hands exactly the
captured duration to the shutdown collaborator regardless of the live
pre-announce seconds setting. -/
theorem fire_time_template_read (cfg : Config) (now : Nat) (st : ModuleState)
    (msg : List Char) (t : ArmedTask) (live : Config) (p : Nat) :
    Init { cfg with preAnnounceMessage := msg } now st = Init cfg now st
    ∧ (fireAction t live).message =
        stringFormat live.preAnnounceMessage (toTimeString t.preSeconds)
    ∧ (fireAction t live).shutdownDelaySeconds = t.preSeconds
    ∧ fireAction t { live with preAnnounceSeconds := p } = fireAction t live := by
  refine ⟨?_, rfl, rfl, ?_⟩
  · cases cfg
    rfl
  · cases live
    rfl
